import Mathlib

/-!
Verification of the emergency food allocation tool.

The repository contains two near-duplicate solver modules, src/solver.py and
src/food.py, each exporting solve_food_survival_buckets_with_waste, plus
compute_expiry_alerts in src/solver.py.  Both build a PuLP MILP, hand it to
the external CBC solver, and post-process the raw variable values into a
result record.  The external solver is modeled as an oracle (LPOut below)
supplying a status string and the raw rational values of the decision
variables x[b][t] and y[t]; the constraint system the modules build is
modeled by the SatisfiesModel predicate, and all post-processing (schedule
extraction, waste accounting, alert generation) is translated line by line.

Python floats are modeled as rationals.  Python round is modeled by pyRound
(round half up; Python rounds half to even, but the two agree everywhere off
exact half-integers, and all uses here round values that are integral up to
solver tolerance).  Python int() truncation is modeled by pyTrunc.  Python
dicts keyed by bucket name are modeled as association lists in insertion
order; per the data model bucket names are unique within a catalog, which is
the regime in which the association-list embedding matches dict semantics.
-/

/-- A food bucket as passed to the solver: the dict keys name, calories,
last_day and the underscore field cal_per_unit used by the alert code. -/
structure Bucket where
  name : String
  calories : ℚ
  last_day : Option ℤ
  cal_per_unit : ℚ
deriving DecidableEq

/-- Oracle for the external CBC solve: the status string produced by
pl.LpStatus and the raw values of the decision variables. -/
structure LPOut where
  status : String
  x : ℕ → ℕ → ℚ
  y : ℕ → ℚ

/-- One schedule row: the dict with keys day, survived, one key per bucket
name (in bucket order), and total. -/
structure DayRow where
  day : ℕ
  survived : ℤ
  draws : List (String × ℚ)
  total : ℚ
deriving DecidableEq

/-- One waste_by_day row: the dict with keys day, waste_total and one key
per bucket that wasted on that day. -/
structure WasteRow where
  day : ℕ
  waste_total : ℚ
  breakdown : List (String × ℚ)
deriving DecidableEq

/-- The dict returned by solve_food_survival_buckets_with_waste. -/
structure SolveResult where
  status : String
  max_days : ℤ
  schedule : List DayRow
  waste_by_day : List WasteRow
  total_waste_by_bucket : List (String × ℚ)
deriving DecidableEq

/-- Python round on a rational: floor of q + 1/2, computed with integer
euclidean division so that it evaluates by kernel reduction. -/
def pyRound (q : ℚ) : ℤ := (2 * q.num + q.den) / (2 * (q.den : ℤ))

/-- Python int() on a rational: truncation toward zero. -/
def pyTrunc (q : ℚ) : ℤ := q.num.tdiv q.den

/-- Cumulative sum of a per-day value over days 1..t. -/
def cum (v : ℕ → ℚ) (t : ℕ) : ℚ := ((List.range' 1 t).map v).sum

/-- The Python consumed_cum[b].get(Lb, 0.0): the cumulative-consumption dict
has exactly the keys 1..H, and the lookup defaults to 0 outside that range. -/
def cumGet (v : ℕ → ℚ) (H : ℕ) (L : ℤ) : ℚ :=
  if 1 ≤ L ∧ L ≤ (H : ℤ) then cum v L.toNat else 0

namespace SolverPy

/-- src/solver.py line 71: val = max(0.0, float(pl.value(x[b][t]))). -/
def drawVal (out : LPOut) (b t : ℕ) : ℚ := max 0 (out.x b t)

/-- src/solver.py lines 66-77: one schedule row for day t. -/
def mkRow (bks : List Bucket) (out : LPOut) (t : ℕ) : DayRow :=
  { day := t
    survived := pyRound (out.y t)
    draws := bks.enum.map fun p => (p.2.name, drawVal out p.1 t)
    total := (bks.enum.map fun p => drawVal out p.1 t).sum }

/-- src/solver.py lines 84-93: waste of one (index, bucket) pair. -/
def wasteOf (out : LPOut) (H : ℕ) (p : ℕ × Bucket) : ℚ :=
  match p.2.last_day with
  | none => 0
  | some L => max 0 (p.2.calories - cumGet (drawVal out p.1) H L)

/-- src/solver.py lines 94-96 and 100: waste_day_totals.get(t, 0.0); a
bucket contributes to day t only when its last_day is t and its waste is
strictly positive. -/
def dayTotal (bks : List Bucket) (out : LPOut) (H t : ℕ) : ℚ :=
  (bks.enum.map fun p =>
    if p.2.last_day = some (t : ℤ) ∧ 0 < wasteOf out H p then wasteOf out H p
    else 0).sum

/-- src/solver.py lines 96-97 and 101-102: the per-bucket breakdown entries
of a waste_by_day row, in bucket order. -/
def dayBreakdown (bks : List Bucket) (out : LPOut) (H t : ℕ) :
    List (String × ℚ) :=
  bks.enum.filterMap fun p =>
    if p.2.last_day = some (t : ℤ) ∧ 0 < wasteOf out H p then
      some (p.2.name, wasteOf out H p)
    else none

/-- src/solver.py solve_food_survival_buckets_with_waste, given the oracle
outcome of the CBC solve.  The enforce flag only shapes the constraint
system handed to CBC (see SatisfiesModel), not the post-processing. -/
def solve (bks : List Bucket) (people cpp : ℚ) (H : ℕ) (enforce : Bool)
    (out : LPOut) : SolveResult :=
  if out.status = "Optimal" ∨ out.status = "Feasible" then
    { status := out.status
      max_days := pyRound (((List.range' 1 H).map out.y).sum)
      schedule := (List.range' 1 H).map (mkRow bks out)
      waste_by_day := (List.range' 1 H).map fun t =>
        { day := t
          waste_total := dayTotal bks out H t
          breakdown := dayBreakdown bks out H t }
      total_waste_by_bucket := bks.enum.map fun p => (p.2.name, wasteOf out H p) }
  else
    { status := out.status, max_days := 0, schedule := [], waste_by_day := []
      total_waste_by_bucket := [] }

end SolverPy

namespace FoodPy

/-- src/food.py line 67: val = float(pl.value(x[b][t])), with no flooring. -/
def drawVal (out : LPOut) (b t : ℕ) : ℚ := out.x b t

/-- src/food.py lines 61-76: one schedule row for day t. -/
def mkRow (bks : List Bucket) (out : LPOut) (t : ℕ) : DayRow :=
  { day := t
    survived := pyRound (out.y t)
    draws := bks.enum.map fun p => (p.2.name, drawVal out p.1 t)
    total := (bks.enum.map fun p => drawVal out p.1 t).sum }

/-- src/food.py lines 85-96: waste of one (index, bucket) pair. -/
def wasteOf (out : LPOut) (H : ℕ) (p : ℕ × Bucket) : ℚ :=
  match p.2.last_day with
  | none => 0
  | some L => max 0 (p.2.calories - cumGet (drawVal out p.1) H L)

/-- src/food.py lines 98-100 and 104: unlike src/solver.py, every expiring
bucket contributes to its expiry day, even with zero waste. -/
def dayTotal (bks : List Bucket) (out : LPOut) (H t : ℕ) : ℚ :=
  (bks.enum.map fun p =>
    if p.2.last_day = some (t : ℤ) then wasteOf out H p else 0).sum

/-- src/food.py lines 101 and 105-106: breakdown entries include zero-waste
buckets. -/
def dayBreakdown (bks : List Bucket) (out : LPOut) (H t : ℕ) :
    List (String × ℚ) :=
  bks.enum.filterMap fun p =>
    if p.2.last_day = some (t : ℤ) then some (p.2.name, wasteOf out H p)
    else none

/-- src/food.py solve_food_survival_buckets_with_waste, given the oracle
outcome of the CBC solve. -/
def solve (bks : List Bucket) (people cpp : ℚ) (H : ℕ) (enforce : Bool)
    (out : LPOut) : SolveResult :=
  if out.status = "Optimal" ∨ out.status = "Feasible" then
    { status := out.status
      max_days := pyRound (((List.range' 1 H).map out.y).sum)
      schedule := (List.range' 1 H).map (mkRow bks out)
      waste_by_day := (List.range' 1 H).map fun t =>
        { day := t
          waste_total := dayTotal bks out H t
          breakdown := dayBreakdown bks out H t }
      total_waste_by_bucket := bks.enum.map fun p => (p.2.name, wasteOf out H p) }
  else
    { status := out.status, max_days := 0, schedule := [], waste_by_day := []
      total_waste_by_bucket := [] }

end FoodPy

/-- The constraint system built by both modules (src/solver.py lines 20-47,
src/food.py lines 13-49) for an allocation request, as a predicate on the
oracle values: x nonnegative (the lowBound), y binary, the daily requirement
with D = people * calories_per_person, the optional no-waste upper bound,
the consecutive-days chain, per-bucket inventory capacity, and per-bucket
expiry cutoffs.  An Optimal or Feasible CBC outcome satisfies this. -/
structure SatisfiesModel (bks : List Bucket) (people cpp : ℚ) (H : ℕ)
    (enforce : Bool) (out : LPOut) : Prop where
  x_nonneg : ∀ p ∈ bks.enum, ∀ t ∈ List.range' 1 H, 0 ≤ out.x p.1 t
  y_binary : ∀ t ∈ List.range' 1 H, out.y t = 0 ∨ out.y t = 1
  daily : ∀ t ∈ List.range' 1 H,
    people * cpp * out.y t ≤ (bks.enum.map fun p => out.x p.1 t).sum
  no_waste : enforce = true → ∀ t ∈ List.range' 1 H,
    (bks.enum.map fun p => out.x p.1 t).sum ≤ people * cpp * out.y t
  consecutive : ∀ t ∈ List.range' 1 (H - 1), out.y (t + 1) ≤ out.y t
  inventory : ∀ p ∈ bks.enum,
    ((List.range' 1 H).map (out.x p.1)).sum ≤ p.2.calories
  expiry : ∀ p ∈ bks.enum, ∀ L, p.2.last_day = some L →
    ∀ t ∈ List.range' 1 H, L < (t : ℤ) → out.x p.1 t = 0

namespace SolverPy

/-- src/solver.py lines 131-135: sum of row.get(name, 0.0) over schedule
rows with day at most L. -/
def scheduledThrough (r : SolveResult) (name : String) (L : ℤ) : ℚ :=
  (((r.schedule.filter fun row => decide ((row.day : ℤ) ≤ L)).map
    fun row => (List.lookup name row.draws).getD 0)).sum

/-- src/solver.py line 136: extra_calories for one bucket. -/
def extraCal (r : SolveResult) (bk : Bucket) (L : ℤ) : ℚ :=
  max 0 (bk.calories - scheduledThrough r bk.name L)

/-- src/solver.py lines 115-156: the alert record built for one expiring
bucket (fields of the dict appended on lines 146-154). -/
structure Alert where
  bucket : String
  expires_day : ℤ
  extra_calories : ℚ
  extra_units_total : ℚ
  extra_units_per_person : ℤ
  remainder_units : ℚ
  cal_per_unit : ℚ
deriving DecidableEq

/-- The alert dict entry built on src/solver.py lines 140-154. -/
def mkAlert (r : SolveResult) (people : ℚ) (bk : Bucket) (L : ℤ) : Alert :=
  let extra := extraCal r bk L
  let totalUnits := extra / bk.cal_per_unit
  let perFloor := pyTrunc (totalUnits / people)
  { bucket := bk.name
    expires_day := L
    extra_calories := extra
    extra_units_total := totalUnits
    extra_units_per_person := perFloor
    remainder_units := totalUnits - (perFloor : ℚ) * people
    cal_per_unit := bk.cal_per_unit }

/-- alerts.setdefault(L, []).append(alert) on an insertion-ordered dict. -/
def addAlert : List (ℤ × List Alert) → ℤ → Alert → List (ℤ × List Alert)
  | [], L, a => [(L, [a])]
  | (K, l) :: rest, L, a =>
    if K = L then (K, l ++ [a]) :: rest else (K, l) :: addAlert rest L a

/-- src/solver.py compute_expiry_alerts: dict keyed by expiry day mapping to
the list of alerts for that day. -/
def compute_expiry_alerts (r : SolveResult) (bks : List Bucket)
    (people : ℚ) : List (ℤ × List Alert) :=
  bks.foldl
    (fun acc bk =>
      match bk.last_day with
      | none => acc
      | some L =>
        if extraCal r bk L < 1 then acc
        else addAlert acc L (mkAlert r people bk L))
    []

/-- Alert a is stored under key L in the alert dict d. -/
def memAlert (d : List (ℤ × List Alert)) (L : ℤ) (a : Alert) : Prop :=
  ∃ p ∈ d, p.1 = L ∧ a ∈ p.2

end SolverPy

/-! Generic evaluation lemmas for the rounding helpers. -/

theorem pyRound_natCast (n : ℕ) : pyRound ((n : ℚ)) = n := by
  unfold pyRound
  rw [Rat.num_natCast, Rat.den_natCast]
  push_cast
  omega

theorem pyRound_zero : pyRound 0 = 0 := by decide

theorem pyRound_one : pyRound 1 = 1 := by decide

theorem pyTrunc_eq_floor (q : ℚ) (h : 0 ≤ q) : pyTrunc q = ⌊q⌋ := by
  unfold pyTrunc
  rw [Rat.floor_def]
  exact Int.tdiv_eq_ediv (Rat.num_nonneg.mpr h) (by positivity)

/-- Claim C3: when the underlying solve reports a status other than Optimal
or Feasible, both modules return (without raising) a result carrying that
status with max_days 0, an empty schedule, an empty waste_by_day list and an
empty total_waste_by_bucket mapping. -/
theorem failed_status_empty_result (bks : List Bucket) (people cpp : ℚ)
    (H : ℕ) (enforce : Bool) (out : LPOut)
    (h : ¬(out.status = "Optimal" ∨ out.status = "Feasible")) :
    SolverPy.solve bks people cpp H enforce out =
      { status := out.status, max_days := 0, schedule := [], waste_by_day := []
        total_waste_by_bucket := [] } ∧
    FoodPy.solve bks people cpp H enforce out =
      { status := out.status, max_days := 0, schedule := [], waste_by_day := []
        total_waste_by_bucket := [] } := by
  constructor
  · unfold SolverPy.solve
    rw [if_neg h]
  · unfold FoodPy.solve
    rw [if_neg h]

/-- Witness for C3 at a concrete Infeasible outcome. -/
theorem failed_status_empty_result_check :
    ¬((("Infeasible":String) = "Optimal") ∨ (("Infeasible":String) = "Feasible")) ∧
    SolverPy.solve [] 1 1 1 true
      { status := "Infeasible", x := fun _ _ => 0, y := fun _ => 0 } =
      { status := "Infeasible", max_days := 0, schedule := [], waste_by_day := []
        total_waste_by_bucket := [] } :=
  ⟨by decide,
   (failed_status_empty_result [] 1 1 1 true
      { status := "Infeasible", x := fun _ _ => 0, y := fun _ => 0 }
      (by decide)).1⟩

/-- Claim C2 (code bug): the repository performs no input validation.  A
request with population 0 is not rejected: the model is built, the
assignment x = 0, y = 1 satisfies every constraint of the built model (the
daily requirement degenerates to 0), and the returned result carries a
solver status, here Optimal with max_days = H = 3 despite an all-zero
consumption plan. -/
theorem zero_population_gets_solver_status :
    SatisfiesModel [{ name := "Rice", calories := 1000, last_day := none
                      cal_per_unit := 100 }] 0 2000 3 true
      { status := "Optimal", x := fun _ _ => 0, y := fun _ => 1 } ∧
    SolverPy.solve [{ name := "Rice", calories := 1000, last_day := none
                      cal_per_unit := 100 }] 0 2000 3 true
      { status := "Optimal", x := fun _ _ => 0, y := fun _ => 1 } =
      { status := "Optimal"
        max_days := 3
        schedule := [
          { day := 1, survived := 1, draws := [("Rice", 0)], total := 0 },
          { day := 2, survived := 1, draws := [("Rice", 0)], total := 0 },
          { day := 3, survived := 1, draws := [("Rice", 0)], total := 0 }]
        waste_by_day := [
          { day := 1, waste_total := 0, breakdown := [] },
          { day := 2, waste_total := 0, breakdown := [] },
          { day := 3, waste_total := 0, breakdown := [] }]
        total_waste_by_bucket := [("Rice", 0)] } := by
  constructor
  · constructor <;> norm_num [List.range', List.enum, List.enumFrom]
  · norm_num [SolverPy.solve, SolverPy.mkRow, SolverPy.wasteOf, SolverPy.dayTotal,
      SolverPy.dayBreakdown, SolverPy.drawVal, cumGet, cum, pyRound, List.range',
      List.enum, List.enumFrom]

/-- Claim C5 (code bug): a bucket whose expiry day lies beyond the horizon
does not behave like a never-expiring bucket in the waste report.  With
calories 100 fully consumed over the two-day horizon and last_day = 3 > H =
2, the code reports the whole 100 calories as waste (the cumulative-
consumption lookup at day 3 defaults to 0), while the identical run with
last_day removed reports 0 waste. -/
theorem expiry_beyond_horizon_counts_all_wasted :
    SatisfiesModel [{ name := "Milk", calories := 100, last_day := some 3
                      cal_per_unit := 10 }] 1 50 2 true
      { status := "Optimal", x := fun _ t => if t ≤ 2 then 50 else 0
        y := fun _ => 1 } ∧
    (SolverPy.solve [{ name := "Milk", calories := 100, last_day := some 3
                       cal_per_unit := 10 }] 1 50 2 true
      { status := "Optimal", x := fun _ t => if t ≤ 2 then 50 else 0
        y := fun _ => 1 }).total_waste_by_bucket = [("Milk", 100)] ∧
    (SolverPy.solve [{ name := "Milk", calories := 100, last_day := none
                       cal_per_unit := 10 }] 1 50 2 true
      { status := "Optimal", x := fun _ t => if t ≤ 2 then 50 else 0
        y := fun _ => 1 }).total_waste_by_bucket = [("Milk", 0)] := by
  refine ⟨?_, ?_, ?_⟩
  · constructor <;> norm_num [List.range', List.enum, List.enumFrom]
  · norm_num [SolverPy.solve, SolverPy.wasteOf, SolverPy.drawVal, cumGet, cum,
      List.range', List.enum, List.enumFrom]
  · norm_num [SolverPy.solve, SolverPy.wasteOf, SolverPy.drawVal, cumGet, cum,
      List.range', List.enum, List.enumFrom]

/-- Claim C7 (amended): in src/solver.py every per-bucket draw value written
into a schedule row is nonnegative, because the raw solver value is floored
at zero.  (src/food.py does not floor; see the counterexample.) -/
theorem solver_draws_floored (bks : List Bucket) (people cpp : ℚ) (H : ℕ)
    (enforce : Bool) (out : LPOut) :
    ((SolverPy.solve bks people cpp H enforce out).schedule.all fun row =>
      row.draws.all fun q => decide (0 ≤ q.2)) = true := by
  simp only [List.all_eq_true, decide_eq_true_eq]
  intro row hrow q hq
  unfold SolverPy.solve at hrow
  split at hrow
  · simp only [List.mem_map] at hrow
    obtain ⟨t, _, rfl⟩ := hrow
    simp only [SolverPy.mkRow, List.mem_map] at hq
    obtain ⟨p, _, rfl⟩ := hq
    exact le_max_left 0 _
  · simp at hrow

/-- Counterexample for C7 as stated: src/food.py writes the raw solver value
into the schedule row, so a negative value produced by solver tolerance is
recorded negative, not floored to zero. -/
theorem food_records_negative_draw :
    (FoodPy.solve [{ name := "Tins", calories := 5, last_day := none
                     cal_per_unit := 1 }] 1 1 1 true
      { status := "Optimal", x := fun _ _ => -1, y := fun _ => 1 }).schedule =
      [{ day := 1, survived := 1, draws := [("Tins", -1)], total := -1 }] ∧
    ((-1 : ℚ) < 0) := by
  constructor
  · norm_num [FoodPy.solve, FoodPy.mkRow, FoodPy.drawVal, pyRound, List.range',
      List.enum, List.enumFrom]
  · norm_num

/-- Counterexample for C8: on the same input and the same underlying solver
values, the two modules return different results, because src/solver.py
floors a negative draw to zero while src/food.py records it as is. -/
theorem modules_results_differ :
    (SolverPy.solve [{ name := "Soup", calories := 5, last_day := none
                       cal_per_unit := 1 }] 1 1 1 true
      { status := "Optimal", x := fun _ _ => -1, y := fun _ => 1 }).schedule =
      [{ day := 1, survived := 1, draws := [("Soup", 0)], total := 0 }] ∧
    (FoodPy.solve [{ name := "Soup", calories := 5, last_day := none
                     cal_per_unit := 1 }] 1 1 1 true
      { status := "Optimal", x := fun _ _ => -1, y := fun _ => 1 }).schedule =
      [{ day := 1, survived := 1, draws := [("Soup", -1)], total := -1 }] ∧
    SolverPy.solve [{ name := "Soup", calories := 5, last_day := none
                      cal_per_unit := 1 }] 1 1 1 true
      { status := "Optimal", x := fun _ _ => -1, y := fun _ => 1 } ≠
    FoodPy.solve [{ name := "Soup", calories := 5, last_day := none
                    cal_per_unit := 1 }] 1 1 1 true
      { status := "Optimal", x := fun _ _ => -1, y := fun _ => 1 } := by
  refine ⟨?_, ?_, ?_⟩
  · norm_num [SolverPy.solve, SolverPy.mkRow, SolverPy.drawVal, pyRound,
      List.range', List.enum, List.enumFrom]
  · norm_num [FoodPy.solve, FoodPy.mkRow, FoodPy.drawVal, pyRound, List.range',
      List.enum, List.enumFrom]
  · intro h
    have hs := congrArg SolveResult.schedule h
    norm_num [SolverPy.solve, SolverPy.mkRow, SolverPy.drawVal, FoodPy.solve,
      FoodPy.mkRow, FoodPy.drawVal, pyRound, List.range', List.enum,
      List.enumFrom] at hs

/-- Counterexample for C4 as stated: for a bucket with expiry day 2 beyond
the horizon H = 1, the code reports the full 100 calories as waste, although
the cumulative draw from the bucket through day 2 of the returned schedule
is 100, so the claimed formula gives max(0, 100 - 100) = 0. -/
theorem waste_formula_beyond_horizon_cex :
    (SolverPy.solve [{ name := "Bread", calories := 100, last_day := some 2
                       cal_per_unit := 50 }] 1 100 1 true
      { status := "Optimal", x := fun _ t => if t = 1 then 100 else 0
        y := fun _ => 1 }).total_waste_by_bucket = [("Bread", 100)] ∧
    SolverPy.scheduledThrough
      (SolverPy.solve [{ name := "Bread", calories := 100, last_day := some 2
                         cal_per_unit := 50 }] 1 100 1 true
        { status := "Optimal", x := fun _ t => if t = 1 then 100 else 0
          y := fun _ => 1 }) "Bread" 2 = 100 ∧
    max (0 : ℚ) (100 - 100) = 0 ∧ (100 : ℚ) ≠ 0 := by
  refine ⟨?_, ?_, by norm_num, by norm_num⟩
  · norm_num [SolverPy.solve, SolverPy.wasteOf, SolverPy.drawVal, cumGet, cum,
      List.range', List.enum, List.enumFrom]
  · norm_num [SolverPy.scheduledThrough, SolverPy.solve, SolverPy.mkRow,
      SolverPy.drawVal, pyRound, List.range', List.enum, List.enumFrom,
      List.lookup]

/-- Counterexample for C6 as stated: with an expiring bucket whose expiry
day 5 lies beyond the horizon H = 1, the per-bucket waste totals sum to 30
but the waste_by_day totals sum to 0 (the waste is attributed to day 5,
which has no row). -/
theorem waste_sums_differ_cex :
    SatisfiesModel [{ name := "Oats", calories := 30, last_day := some 5
                      cal_per_unit := 10 }] 2 10 1 true
      { status := "Optimal", x := fun _ t => if t = 1 then 20 else 0
        y := fun _ => 1 } ∧
    (((SolverPy.solve [{ name := "Oats", calories := 30, last_day := some 5
                         cal_per_unit := 10 }] 2 10 1 true
      { status := "Optimal", x := fun _ t => if t = 1 then 20 else 0
        y := fun _ => 1 }).total_waste_by_bucket.map Prod.snd).sum = 30) ∧
    (((SolverPy.solve [{ name := "Oats", calories := 30, last_day := some 5
                         cal_per_unit := 10 }] 2 10 1 true
      { status := "Optimal", x := fun _ t => if t = 1 then 20 else 0
        y := fun _ => 1 }).waste_by_day.map WasteRow.waste_total).sum = 0) ∧
    (30 : ℚ) ≠ 0 := by
  refine ⟨?_, ?_, ?_, by norm_num⟩
  · constructor <;> norm_num [List.range', List.enum, List.enumFrom]
  · norm_num [SolverPy.solve, SolverPy.wasteOf, SolverPy.drawVal, cumGet, cum,
      List.range', List.enum, List.enumFrom]
  · norm_num [SolverPy.solve, SolverPy.wasteOf, SolverPy.dayTotal,
      SolverPy.dayBreakdown, SolverPy.drawVal, cumGet, cum, List.range',
      List.enum, List.enumFrom]

/-! Helper lemmas comparing the two modules pointwise. -/

theorem filterMap_congr_mem {α β : Type} (l : List α) (f g : α → Option β)
    (h : ∀ a ∈ l, f a = g a) : l.filterMap f = l.filterMap g := by
  induction l with
  | nil => rfl
  | cons a l ih =>
    simp only [List.filterMap_cons, h a (List.mem_cons_self a l)]
    cases g a <;> simp [ih fun b hb => h b (List.mem_cons_of_mem a hb)]

theorem solver_wasteOf_nonneg (out : LPOut) (H : ℕ) (p : ℕ × Bucket) :
    0 ≤ SolverPy.wasteOf out H p := by
  unfold SolverPy.wasteOf
  cases p.2.last_day
  · exact le_refl 0
  · exact le_max_left 0 _

theorem drawVal_eq_of_nonneg (bks : List Bucket) (out : LPOut) (H : ℕ)
    (hx : ∀ p ∈ bks.enum, ∀ t ∈ List.range' 1 H, 0 ≤ out.x p.1 t) :
    ∀ p ∈ bks.enum, ∀ t ∈ List.range' 1 H,
      SolverPy.drawVal out p.1 t = FoodPy.drawVal out p.1 t := by
  intro p hp t ht
  unfold SolverPy.drawVal FoodPy.drawVal
  exact max_eq_right (hx p hp t ht)

theorem wasteOf_eq_of_nonneg (bks : List Bucket) (out : LPOut) (H : ℕ)
    (hx : ∀ p ∈ bks.enum, ∀ t ∈ List.range' 1 H, 0 ≤ out.x p.1 t) :
    ∀ p ∈ bks.enum, SolverPy.wasteOf out H p = FoodPy.wasteOf out H p := by
  intro p hp
  cases hld : p.2.last_day with
  | none => simp [SolverPy.wasteOf, FoodPy.wasteOf, hld]
  | some L =>
    have hcg : cumGet (SolverPy.drawVal out p.1) H L =
        cumGet (FoodPy.drawVal out p.1) H L := by
      unfold cumGet
      split
      · next hL =>
        refine congrArg List.sum (List.map_congr_left ?_)
        intro t ht
        have h1 : t ∈ List.range' 1 H := by
          rw [List.mem_range'_1] at ht ⊢
          omega
        exact drawVal_eq_of_nonneg bks out H hx p hp t h1
      · rfl
    simp [SolverPy.wasteOf, FoodPy.wasteOf, hld, hcg]

theorem mkRow_eq_of_nonneg (bks : List Bucket) (out : LPOut) (H : ℕ)
    (hx : ∀ p ∈ bks.enum, ∀ t ∈ List.range' 1 H, 0 ≤ out.x p.1 t) :
    ∀ t ∈ List.range' 1 H,
      SolverPy.mkRow bks out t = FoodPy.mkRow bks out t := by
  intro t ht
  unfold SolverPy.mkRow FoodPy.mkRow
  congr 1
  · exact List.map_congr_left fun p hp => by
      rw [drawVal_eq_of_nonneg bks out H hx p hp t ht]
  · exact congrArg List.sum (List.map_congr_left fun p hp =>
      drawVal_eq_of_nonneg bks out H hx p hp t ht)

/-- Claim C8 (amended): the two modules return identical results whenever
the raw solver values taken from the model grid are all nonnegative and no
expiring bucket with an in-horizon expiry day has exactly zero waste.  (The
two counterexample ingredients are exactly the two code differences:
src/food.py does not floor negative draws, and it records zero-waste buckets
in the per-day waste breakdown.) -/
theorem modules_agree_on_clean_outputs (bks : List Bucket) (people cpp : ℚ)
    (H : ℕ) (enforce : Bool) (out : LPOut)
    (hx : ∀ p ∈ bks.enum, ∀ t ∈ List.range' 1 H, 0 ≤ out.x p.1 t)
    (hwz : ∀ p ∈ bks.enum, ∀ L : ℤ, p.2.last_day = some L → 1 ≤ L →
      L ≤ (H : ℤ) → SolverPy.wasteOf out H p ≠ 0) :
    SolverPy.solve bks people cpp H enforce out =
      FoodPy.solve bks people cpp H enforce out := by
  unfold SolverPy.solve FoodPy.solve
  split
  · congr 1
    · exact List.map_congr_left (mkRow_eq_of_nonneg bks out H hx)
    · refine List.map_congr_left fun t ht => ?_
      have htH : 1 ≤ t ∧ t ≤ H := by
        rw [List.mem_range'_1] at ht
        omega
      congr 1
      · -- waste_total: the zero-waste terms contribute zero on both sides
        unfold SolverPy.dayTotal FoodPy.dayTotal
        refine congrArg List.sum (List.map_congr_left fun p hp => ?_)
        have hw := wasteOf_eq_of_nonneg bks out H hx p hp
        by_cases hld : p.2.last_day = some (t : ℤ)
        · by_cases h0 : 0 < SolverPy.wasteOf out H p
          · rw [← hw]
            simp [hld, h0]
          · have hz : SolverPy.wasteOf out H p = 0 :=
              le_antisymm (not_lt.mp h0) (solver_wasteOf_nonneg out H p)
            rw [← hw]
            simp [hld, h0, hz]
        · simp [hld]
      · -- breakdown: in-horizon expiring buckets have nonzero waste
        unfold SolverPy.dayBreakdown FoodPy.dayBreakdown
        refine filterMap_congr_mem _ _ _ fun p hp => ?_
        have hw := wasteOf_eq_of_nonneg bks out H hx p hp
        by_cases hld : p.2.last_day = some (t : ℤ)
        · have hne := hwz p hp (t : ℤ) hld (by exact_mod_cast htH.1)
            (by exact_mod_cast htH.2)
          have h0 : 0 < SolverPy.wasteOf out H p :=
            lt_of_le_of_ne (solver_wasteOf_nonneg out H p) (Ne.symm hne)
          rw [← hw]
          simp [hld, h0]
        · simp [hld]
    · exact List.map_congr_left fun p hp => by
        rw [wasteOf_eq_of_nonneg bks out H hx p hp]
  · rfl

/-- Witness for C8 amended, at a one-bucket input with nonnegative draws and
strictly positive waste for the expiring bucket. -/
theorem modules_agree_check :
    SolverPy.solve [{ name := "Stew", calories := 40, last_day := some 1
                      cal_per_unit := 10 }] 1 30 1 true
      { status := "Optimal", x := fun _ t => if t = 1 then 30 else 0
        y := fun _ => 1 } =
    FoodPy.solve [{ name := "Stew", calories := 40, last_day := some 1
                    cal_per_unit := 10 }] 1 30 1 true
      { status := "Optimal", x := fun _ t => if t = 1 then 30 else 0
        y := fun _ => 1 } :=
  modules_agree_on_clean_outputs _ _ _ _ _ _
    (by decide)
    (by
      intro p hp L hsome h1 h2
      simp only [List.enum, List.enumFrom, List.mem_singleton] at hp
      subst hp
      norm_num [SolverPy.wasteOf, SolverPy.drawVal, cumGet, cum, List.range'])

/-! Association-list lookup of keyed maps under unique names. -/

theorem lookup_map_of_nodup {α β : Type} (l : List α) (key : α → String)
    (g : α → β) (hn : (l.map key).Nodup) (x : α) (hx : x ∈ l) :
    (l.map fun a => (key a, g a)).lookup (key x) = some (g x) := by
  induction l with
  | nil => cases hx
  | cons a l ih =>
    rcases List.mem_cons.mp hx with rfl | hx'
    · simp [List.lookup]
    · have hn' : (∀ b ∈ l, ¬ key b = key a) ∧ (l.map key).Nodup := by
        simpa using hn
      have hne : key x ≠ key a := hn'.1 x hx'
      have hb : (key x == key a) = false := beq_eq_false_iff_ne.mpr hne
      simp only [List.map_cons, List.lookup, hb]
      exact ih hn'.2 hx'

theorem enum_map_name (bks : List Bucket) :
    (bks.enum.map fun p => p.2.name) = bks.map Bucket.name := by
  rw [show (fun p : ℕ × Bucket => p.2.name) = Bucket.name ∘ Prod.snd from rfl]
  rw [← List.map_map, List.enum_map_snd]

theorem filter_range'_le (k H : ℕ) (h : k ≤ H) :
    (List.range' 1 H).filter (fun t => decide (t ≤ k)) = List.range' 1 k := by
  induction H with
  | zero =>
    have : k = 0 := Nat.le_zero.mp h
    simp [this]
  | succ H ih =>
    rcases Nat.lt_or_ge k (H + 1) with hk | hk
    · have hkH : k ≤ H := Nat.lt_succ_iff.mp hk
      rw [List.range'_concat, List.filter_append, ih hkH]
      have : ¬ (1 + 1 * H ≤ k) := by omega
      simp [this]
      omega
    · have : k = H + 1 := le_antisymm h hk
      subst this
      refine List.filter_eq_self.mpr fun t ht => ?_
      rw [List.mem_range'_1] at ht
      simp only [decide_eq_true_eq]
      omega

theorem scheduledThrough_eq_cumGet (bks : List Bucket) (people cpp : ℚ)
    (H : ℕ) (enforce : Bool) (out : LPOut)
    (hok : out.status = "Optimal" ∨ out.status = "Feasible")
    (hname : (bks.map Bucket.name).Nodup)
    (p : ℕ × Bucket) (hp : p ∈ bks.enum) (L : ℤ) (hL : L ≤ (H : ℤ)) :
    SolverPy.scheduledThrough (SolverPy.solve bks people cpp H enforce out)
      p.2.name L = cumGet (SolverPy.drawVal out p.1) H L := by
  unfold SolverPy.scheduledThrough SolverPy.solve
  rw [if_pos hok]
  simp only
  rw [List.filter_map, List.map_map]
  have hrowlk : ∀ t : ℕ,
      ((List.lookup p.2.name (SolverPy.mkRow bks out t).draws).getD 0) =
        SolverPy.drawVal out p.1 t := by
    intro t
    have := lookup_map_of_nodup bks.enum (fun q => q.2.name)
      (fun q => SolverPy.drawVal out q.1 t) (by rw [enum_map_name]; exact hname)
      p hp
    simp only [SolverPy.mkRow]
    rw [this]
    rfl
  by_cases h1 : 1 ≤ L
  · have hLt : L.toNat ≤ H := by omega
    have hfe : (List.range' 1 H).filter
        ((fun row => decide ((row.day : ℤ) ≤ L)) ∘ SolverPy.mkRow bks out) =
        List.range' 1 L.toNat := by
      rw [← filter_range'_le L.toNat H hLt]
      refine List.filter_congr fun t ht => ?_
      simp only [Function.comp_apply, SolverPy.mkRow, decide_eq_decide]
      omega
    rw [hfe]
    rw [cumGet, if_pos ⟨h1, hL⟩]
    unfold cum
    exact congrArg List.sum (List.map_congr_left fun t ht => hrowlk t)
  · have hfe : (List.range' 1 H).filter
        ((fun row => decide ((row.day : ℤ) ≤ L)) ∘ SolverPy.mkRow bks out) = [] := by
      refine List.filter_eq_nil_iff.mpr fun t ht => ?_
      rw [List.mem_range'_1] at ht
      simp only [Function.comp_apply, SolverPy.mkRow, decide_eq_true_eq]
      omega
    rw [hfe]
    rw [cumGet, if_neg (by omega)]
    rfl

/-- Claim C4 (amended): for every successful solve and every bucket whose
finite expiry day L satisfies L at most H, the reported waste is
max(0, total_calories - consumed_through(L)), where consumed_through(L) is
the cumulative draw from that bucket through day L of the returned schedule;
every bucket with no expiry day has reported waste 0.  (For L beyond the
horizon the code instead treats the bucket as entirely unconsumed; see the
counterexample.) -/
theorem waste_formula_within_horizon (bks : List Bucket) (people cpp : ℚ)
    (H : ℕ) (enforce : Bool) (out : LPOut)
    (hok : out.status = "Optimal" ∨ out.status = "Feasible")
    (hname : (bks.map Bucket.name).Nodup) :
    (∀ p ∈ bks.enum, ∀ L : ℤ, p.2.last_day = some L → L ≤ (H : ℤ) →
      (SolverPy.solve bks people cpp H enforce out).total_waste_by_bucket.lookup
          p.2.name =
        some (max 0 (p.2.calories -
          SolverPy.scheduledThrough (SolverPy.solve bks people cpp H enforce out)
            p.2.name L))) ∧
    (∀ p ∈ bks.enum, p.2.last_day = none →
      (SolverPy.solve bks people cpp H enforce out).total_waste_by_bucket.lookup
          p.2.name = some 0) := by
  have hlk : ∀ p ∈ bks.enum,
      (SolverPy.solve bks people cpp H enforce out).total_waste_by_bucket.lookup
        p.2.name = some (SolverPy.wasteOf out H p) := by
    intro p hp
    unfold SolverPy.solve
    rw [if_pos hok]
    exact lookup_map_of_nodup bks.enum (fun q => q.2.name)
      (fun q => SolverPy.wasteOf out H q) (by rw [enum_map_name]; exact hname) p hp
  constructor
  · intro p hp L hld hL
    rw [hlk p hp,
      scheduledThrough_eq_cumGet bks people cpp H enforce out hok hname p hp L hL]
    simp [SolverPy.wasteOf, hld]
  · intro p hp hld
    rw [hlk p hp]
    simp [SolverPy.wasteOf, hld]

/-- Witness for C4 amended at a one-bucket input whose expiry day equals the
horizon. -/
theorem waste_formula_within_horizon_check :
    (SolverPy.solve [{ name := "Rye", calories := 100, last_day := some 1
                       cal_per_unit := 50 }] 1 60 1 true
      { status := "Optimal", x := fun _ t => if t = 1 then 60 else 0
        y := fun _ => 1 }).total_waste_by_bucket.lookup "Rye" =
      some (max 0 (100 -
        SolverPy.scheduledThrough
          (SolverPy.solve [{ name := "Rye", calories := 100, last_day := some 1
                             cal_per_unit := 50 }] 1 60 1 true
            { status := "Optimal", x := fun _ t => if t = 1 then 60 else 0
              y := fun _ => 1 }) "Rye" 1)) :=
  (waste_formula_within_horizon
    [{ name := "Rye", calories := 100, last_day := some 1, cal_per_unit := 50 }]
    1 60 1 true
    { status := "Optimal", x := fun _ t => if t = 1 then 60 else 0
      y := fun _ => 1 }
    (by decide) (by decide)).1
    (0, { name := "Rye", calories := 100, last_day := some 1, cal_per_unit := 50 })
    (by decide) 1 rfl (by decide)

/-! Sum manipulation helpers for the waste accounting. -/

theorem sum_map_zero {α : Type} (l : List α) :
    (l.map fun _ => (0 : ℚ)).sum = 0 := by
  induction l with
  | nil => rfl
  | cons a l ih => simp [ih]

theorem sum_map_add {α : Type} (l : List α) (f g : α → ℚ) :
    (l.map fun a => f a + g a).sum = (l.map f).sum + (l.map g).sum := by
  induction l with
  | nil => simp
  | cons a l ih =>
    simp only [List.map_cons, List.sum_cons, ih]
    ring

theorem sum_map_swap {α β : Type} (l1 : List α) (l2 : List β)
    (g : α → β → ℚ) :
    (l1.map fun t => (l2.map (g t)).sum).sum =
      (l2.map fun p => (l1.map fun t => g t p).sum).sum := by
  induction l2 generalizing g with
  | nil =>
    rw [show (l1.map fun t => (([] : List β).map (g t)).sum) =
      l1.map fun _ => (0 : ℚ) from rfl]
    rw [sum_map_zero]
    rfl
  | cons b l2 ih =>
    have h1 : (l1.map fun t => ((b :: l2).map (g t)).sum) =
        l1.map fun t => g t b + (l2.map (g t)).sum :=
      List.map_congr_left fun t _ => by simp
    rw [h1, sum_map_add, ih g, List.map_cons, List.sum_cons]

theorem sum_map_single (l : List ℕ) (hnd : l.Nodup) (t0 : ℕ) (ht0 : t0 ∈ l)
    (c : ℚ) : (l.map fun t => if t = t0 then c else 0).sum = c := by
  induction l with
  | nil => cases ht0
  | cons a l ih =>
    have hnd' := List.nodup_cons.mp hnd
    rcases List.mem_cons.mp ht0 with rfl | h'
    · have : ∀ t ∈ l, (if t = t0 then c else 0) = 0 := by
        intro t htl
        have : t ≠ t0 := fun he => hnd'.1 (he ▸ htl)
        simp [this]
      simp only [List.map_cons, List.sum_cons]
      rw [List.map_congr_left this, sum_map_zero]
      simp
    · have hne : a ≠ t0 := fun he => hnd'.1 (he ▸ h')
      simp only [List.map_cons, List.sum_cons, hne, if_false]
      rw [ih hnd'.2 h']
      ring

/-- Claim C6 (amended): for every successful solve in which every finite
expiry day lies within 1..H, the per-bucket waste totals and the per-day
waste totals sum to the same quantity.  (An expiry day outside the horizon
breaks the equality; see the counterexample.) -/
theorem waste_sums_consistent (bks : List Bucket) (people cpp : ℚ) (H : ℕ)
    (enforce : Bool) (out : LPOut)
    (hok : out.status = "Optimal" ∨ out.status = "Feasible")
    (hL : ∀ bk ∈ bks, ∀ L : ℤ, bk.last_day = some L → 1 ≤ L ∧ L ≤ (H : ℤ)) :
    ((SolverPy.solve bks people cpp H enforce out).total_waste_by_bucket.map
      Prod.snd).sum =
    ((SolverPy.solve bks people cpp H enforce out).waste_by_day.map
      WasteRow.waste_total).sum := by
  unfold SolverPy.solve
  rw [if_pos hok]
  simp only [List.map_map]
  rw [show (WasteRow.waste_total ∘ fun t =>
      ({ day := t, waste_total := SolverPy.dayTotal bks out H t
         breakdown := SolverPy.dayBreakdown bks out H t } : WasteRow)) =
    fun t => SolverPy.dayTotal bks out H t from rfl]
  rw [show (Prod.snd ∘ fun p : ℕ × Bucket =>
      (p.2.name, SolverPy.wasteOf out H p)) =
    fun p => SolverPy.wasteOf out H p from rfl]
  unfold SolverPy.dayTotal
  rw [sum_map_swap]
  refine congrArg List.sum (List.map_congr_left fun p hp => ?_).symm
  have hmem : p.2 ∈ bks := by
    have h := List.enum_map_snd bks
    exact h ▸ List.mem_map_of_mem Prod.snd hp
  cases hld : p.2.last_day with
  | none =>
    have hz : ∀ t ∈ List.range' 1 H,
        (if (none : Option ℤ) = some (t : ℤ) ∧ 0 < SolverPy.wasteOf out H p then
          SolverPy.wasteOf out H p else 0) = 0 := by
      intro t _
      simp
    rw [List.map_congr_left hz, sum_map_zero]
    simp [SolverPy.wasteOf, hld]
  | some L =>
    obtain ⟨h1, h2⟩ := hL p.2 hmem L hld
    by_cases h0 : 0 < SolverPy.wasteOf out H p
    · have hcg : ∀ t ∈ List.range' 1 H,
          (if some L = some (t : ℤ) ∧ 0 < SolverPy.wasteOf out H p then
            SolverPy.wasteOf out H p else 0) =
          (if t = L.toNat then SolverPy.wasteOf out H p else 0) := by
        intro t _
        by_cases he : t = L.toNat
        · subst he
          have h3 : ((L.toNat : ℕ) : ℤ) = L := Int.toNat_of_nonneg (by omega)
          simp [h3, h0]
        · have h3 : ¬ ((L : ℤ) = (t : ℤ)) := by omega
          simp [Option.some.injEq, h3, he]
      rw [List.map_congr_left hcg]
      rw [sum_map_single (List.range' 1 H) (List.nodup_range' 1 H) L.toNat
        (by rw [List.mem_range'_1]; omega) (SolverPy.wasteOf out H p)]
    · have hz : SolverPy.wasteOf out H p = 0 :=
        le_antisymm (not_lt.mp h0) (solver_wasteOf_nonneg out H p)
      have hcg : ∀ t ∈ List.range' 1 H,
          (if some L = some (t : ℤ) ∧ 0 < SolverPy.wasteOf out H p then
            SolverPy.wasteOf out H p else 0) = 0 := by
        intro t _
        simp [h0]
      rw [List.map_congr_left hcg, sum_map_zero, hz]

/-- Witness for C6 amended at a one-bucket input whose expiry day lies
within the horizon: both sums evaluate to the same waste. -/
theorem waste_sums_consistent_check :
    ((SolverPy.solve [{ name := "Figs", calories := 30, last_day := some 1
                        cal_per_unit := 10 }] 1 20 1 true
      { status := "Optimal", x := fun _ t => if t = 1 then 20 else 0
        y := fun _ => 1 }).total_waste_by_bucket.map Prod.snd).sum =
    ((SolverPy.solve [{ name := "Figs", calories := 30, last_day := some 1
                        cal_per_unit := 10 }] 1 20 1 true
      { status := "Optimal", x := fun _ t => if t = 1 then 20 else 0
        y := fun _ => 1 }).waste_by_day.map WasteRow.waste_total).sum :=
  waste_sums_consistent
    [{ name := "Figs", calories := 30, last_day := some 1, cal_per_unit := 10 }]
    1 20 1 true
    { status := "Optimal", x := fun _ t => if t = 1 then 20 else 0
      y := fun _ => 1 }
    (by decide)
    (by
      intro bk hbk L hsome
      simp only [List.mem_singleton] at hbk
      subst hbk
      injection hsome with h
      exact ⟨by omega, by omega⟩)

/-! The survived variables: binary, monotone, and their prefix structure. -/

theorem binary_sum (y : ℕ → ℚ) (l : List ℕ)
    (hbin : ∀ t ∈ l, y t = 0 ∨ y t = 1) :
    (l.map y).sum = ((l.countP fun s => decide (y s = 1)) : ℚ) := by
  induction l with
  | nil => simp
  | cons a l ih =>
    have hbl : ∀ t ∈ l, y t = 0 ∨ y t = 1 := fun t ht =>
      hbin t (List.mem_cons_of_mem a ht)
    rcases hbin a (List.mem_cons_self a l) with h | h
    · have hd : (decide (y a = 1)) = false := by simp [h]
      simp only [List.map_cons, List.sum_cons, List.countP_cons, hd]
      rw [ih hbl, h]
      push_cast
      ring
    · have hd : (decide (y a = 1)) = true := by simp [h]
      simp only [List.map_cons, List.sum_cons, List.countP_cons, hd]
      rw [ih hbl, h]
      push_cast
      ring

theorem binary_chain (y : ℕ → ℚ) (H : ℕ)
    (hbin : ∀ t, 1 ≤ t → t ≤ H → y t = 0 ∨ y t = 1)
    (hmono : ∀ t, 1 ≤ t → t + 1 ≤ H → y (t + 1) ≤ y t) :
    ∀ u t, 1 ≤ t → t ≤ u → u ≤ H → y u = 1 → y t = 1 := by
  intro u
  induction u with
  | zero => intro t h1 h2 _ _; omega
  | succ u ihu =>
    intro t h1 h2 h3 hy
    rcases Nat.lt_or_ge t (u + 1) with hlt | hge
    · have h1u : 1 ≤ u := by omega
      have hyu : y u = 1 := by
        have hm := hmono u h1u (by omega)
        rw [hy] at hm
        rcases hbin u (by omega) (by omega) with h | h
        · rw [h] at hm
          norm_num at hm
        · exact h
      exact ihu t h1 (by omega) (by omega) hyu
    · have ht : t = u + 1 := by omega
      rw [ht]
      exact hy

theorem binary_prefix (y : ℕ → ℚ) :
    ∀ H : ℕ, (∀ t, 1 ≤ t → t ≤ H → y t = 0 ∨ y t = 1) →
    (∀ t, 1 ≤ t → t + 1 ≤ H → y (t + 1) ≤ y t) →
    ∀ t, 1 ≤ t → t ≤ H →
      (y t = 1 ↔ t ≤ (List.range' 1 H).countP fun s => decide (y s = 1)) := by
  intro H
  induction H with
  | zero => intro _ _ t h1 h0; omega
  | succ H ih =>
    intro hbin hmono t h1 ht
    have hbinH : ∀ s, 1 ≤ s → s ≤ H → y s = 0 ∨ y s = 1 := fun s a b =>
      hbin s a (by omega)
    have hmonoH : ∀ s, 1 ≤ s → s + 1 ≤ H → y (s + 1) ≤ y s := fun s a b =>
      hmono s a (by omega)
    rcases hbin (H + 1) (by omega) (le_refl _) with h | h
    · have hk : (List.range' 1 (H + 1)).countP (fun s => decide (y s = 1)) =
          (List.range' 1 H).countP (fun s => decide (y s = 1)) := by
        rw [List.range'_concat, List.countP_append]
        have hdf : ¬ y (1 + H) = 1 := by
          rw [show 1 + H = H + 1 from by omega, h]
          norm_num
        simp [hdf]
      rw [hk]
      rcases Nat.lt_or_ge t (H + 1) with hlt | hge
      · exact ih hbinH hmonoH t h1 (by omega)
      · have ht1 : t = H + 1 := by omega
        subst ht1
        constructor
        · intro hy
          rw [hy] at h
          norm_num at h
        · intro hle
          exfalso
          have hcl := List.countP_le_length (l := List.range' 1 H)
            (fun s => decide (y s = 1))
          rw [List.length_range'] at hcl
          omega
    · have hall : ∀ s, 1 ≤ s → s ≤ H + 1 → y s = 1 := fun s a b =>
        binary_chain y (H + 1) hbin hmono (H + 1) s a b (le_refl _) h
      have hk : (List.range' 1 (H + 1)).countP (fun s => decide (y s = 1)) =
          H + 1 := by
        rw [List.countP_eq_length.mpr ?_, List.length_range']
        intro s hs
        rw [List.mem_range'_1] at hs
        simp [hall s hs.1 (by omega)]
      rw [hk]
      simp [hall t h1 ht, ht]

/-- Claim C1: for every valid request whose solve succeeds (the status is
Optimal or Feasible and the returned variable values satisfy the built
constraint system), the survived days of the returned schedule are exactly
the prefix 1..max_days, and max_days equals the number of survived days. -/
theorem solver_schedule_prefix (bks : List Bucket) (people cpp : ℚ) (H : ℕ)
    (enforce : Bool) (out : LPOut)
    (hpeople : 0 < people) (hcpp : 0 < cpp) (hH : 0 < H)
    (hok : out.status = "Optimal" ∨ out.status = "Feasible")
    (hsat : SatisfiesModel bks people cpp H enforce out) :
    (∀ row ∈ (SolverPy.solve bks people cpp H enforce out).schedule,
      (row.survived = 1 ↔
        (row.day : ℤ) ≤ (SolverPy.solve bks people cpp H enforce out).max_days)) ∧
    (SolverPy.solve bks people cpp H enforce out).max_days =
      (((SolverPy.solve bks people cpp H enforce out).schedule.countP
        fun row => decide (row.survived = 1)) : ℤ) := by
  have hbin : ∀ t, 1 ≤ t → t ≤ H → out.y t = 0 ∨ out.y t = 1 := by
    intro t ha hb
    exact hsat.y_binary t (by rw [List.mem_range'_1]; omega)
  have hmono : ∀ t, 1 ≤ t → t + 1 ≤ H → out.y (t + 1) ≤ out.y t := by
    intro t ha hb
    exact hsat.consecutive t (by rw [List.mem_range'_1]; omega)
  have hsum : ((List.range' 1 H).map out.y).sum =
      (((List.range' 1 H).countP fun s => decide (out.y s = 1)) : ℚ) :=
    binary_sum out.y _ fun t ht => by
      rw [List.mem_range'_1] at ht
      exact hbin t ht.1 (by omega)
  have hmax : pyRound (((List.range' 1 H).map out.y).sum) =
      (((List.range' 1 H).countP fun s => decide (out.y s = 1)) : ℤ) := by
    rw [hsum, pyRound_natCast]
  unfold SolverPy.solve
  rw [if_pos hok]
  dsimp only
  constructor
  · intro row hrow
    simp only [List.mem_map] at hrow
    obtain ⟨t, ht, rfl⟩ := hrow
    rw [List.mem_range'_1] at ht
    have h1t : 1 ≤ t := ht.1
    have htH : t ≤ H := by omega
    have hiff := binary_prefix out.y H hbin hmono t h1t htH
    simp only [SolverPy.mkRow, hmax]
    constructor
    · intro hs
      have hyt : out.y t = 1 := by
        rcases hbin t h1t htH with h | h
        · rw [h, pyRound_zero] at hs
          exact absurd hs (by norm_num)
        · exact h
      exact_mod_cast hiff.mp hyt
    · intro hd
      have hdk : t ≤ (List.range' 1 H).countP fun s => decide (out.y s = 1) := by
        exact_mod_cast hd
      rw [hiff.mpr hdk, pyRound_one]
  · rw [hmax, List.countP_map]
    congr 1
    refine (List.countP_congr fun t ht => ?_).symm
    rw [List.mem_range'_1] at ht
    simp only [Function.comp_apply, SolverPy.mkRow, decide_eq_true_eq]
    rcases hbin t ht.1 (by omega) with h | h
    · rw [h, pyRound_zero]
      constructor
      · intro hc
        exact absurd hc (by norm_num)
      · intro hc
        exact absurd hc (by norm_num)
    · rw [h, pyRound_one]
      norm_num

/-- Witness for C1 at a two-day request whose solution survives only day 1. -/
theorem solver_schedule_prefix_check :
    (∀ row ∈ (SolverPy.solve [{ name := "Corn", calories := 100
                                last_day := none, cal_per_unit := 10 }] 1 50 2 true
      { status := "Optimal", x := fun _ t => if t = 1 then 50 else 0
        y := fun t => if t = 1 then 1 else 0 }).schedule,
      (row.survived = 1 ↔
        (row.day : ℤ) ≤ (SolverPy.solve [{ name := "Corn", calories := 100
                                           last_day := none, cal_per_unit := 10 }]
          1 50 2 true
          { status := "Optimal", x := fun _ t => if t = 1 then 50 else 0
            y := fun t => if t = 1 then 1 else 0 }).max_days)) ∧
    (SolverPy.solve [{ name := "Corn", calories := 100, last_day := none
                       cal_per_unit := 10 }] 1 50 2 true
      { status := "Optimal", x := fun _ t => if t = 1 then 50 else 0
        y := fun t => if t = 1 then 1 else 0 }).max_days =
      (((SolverPy.solve [{ name := "Corn", calories := 100, last_day := none
                           cal_per_unit := 10 }] 1 50 2 true
        { status := "Optimal", x := fun _ t => if t = 1 then 50 else 0
          y := fun t => if t = 1 then 1 else 0 }).schedule.countP
        fun row => decide (row.survived = 1)) : ℤ) :=
  solver_schedule_prefix
    [{ name := "Corn", calories := 100, last_day := none, cal_per_unit := 10 }]
    1 50 2 true
    { status := "Optimal", x := fun _ t => if t = 1 then 50 else 0
      y := fun t => if t = 1 then 1 else 0 }
    (by norm_num) (by norm_num) (by norm_num) (by decide)
    (by
      constructor <;> norm_num [List.range', List.enum, List.enumFrom]
      intro L hL
      simp at hL)

/-! Membership structure of the alert dictionary. -/

theorem memAlert_nil (L : ℤ) (a : SolverPy.Alert) :
    ¬ SolverPy.memAlert [] L a := by
  simp [SolverPy.memAlert]

theorem memAlert_cons (K : ℤ) (l : List SolverPy.Alert)
    (d : List (ℤ × List SolverPy.Alert)) (L : ℤ) (a : SolverPy.Alert) :
    SolverPy.memAlert ((K, l) :: d) L a ↔
      (K = L ∧ a ∈ l) ∨ SolverPy.memAlert d L a := by
  unfold SolverPy.memAlert
  constructor
  · rintro ⟨p, hp, h1, h2⟩
    rcases List.mem_cons.mp hp with rfl | hp'
    · exact Or.inl ⟨h1, h2⟩
    · exact Or.inr ⟨p, hp', h1, h2⟩
  · rintro (⟨h1, h2⟩ | ⟨p, hp, h1, h2⟩)
    · exact ⟨(K, l), List.mem_cons_self _ _, h1, h2⟩
    · exact ⟨p, List.mem_cons_of_mem _ hp, h1, h2⟩

theorem memAlert_addAlert (d : List (ℤ × List SolverPy.Alert)) (K : ℤ)
    (b : SolverPy.Alert) (L : ℤ) (a : SolverPy.Alert) :
    SolverPy.memAlert (SolverPy.addAlert d K b) L a ↔
      SolverPy.memAlert d L a ∨ (L = K ∧ a = b) := by
  induction d with
  | nil =>
    rw [show SolverPy.addAlert [] K b = [(K, [b])] from rfl, memAlert_cons]
    constructor
    · rintro (⟨h1, h2⟩ | h)
      · exact Or.inr ⟨h1.symm, by simpa using h2⟩
      · exact absurd h (memAlert_nil L a)
    · rintro (h | ⟨h1, h2⟩)
      · exact absurd h (memAlert_nil L a)
      · exact Or.inl ⟨h1.symm, by simp [h2]⟩
  | cons q d ih =>
    obtain ⟨K', l'⟩ := q
    by_cases hKK : K' = K
    · subst hKK
      rw [show SolverPy.addAlert ((K', l') :: d) K' b = (K', l' ++ [b]) :: d
        from by simp [SolverPy.addAlert]]
      rw [memAlert_cons, memAlert_cons]
      simp only [List.mem_append, List.mem_singleton]
      constructor
      · rintro (⟨h1, h2 | h2⟩ | h)
        · exact Or.inl (Or.inl ⟨h1, h2⟩)
        · exact Or.inr ⟨h1.symm, h2⟩
        · exact Or.inl (Or.inr h)
      · rintro ((⟨h1, h2⟩ | h) | ⟨h1, h2⟩)
        · exact Or.inl ⟨h1, Or.inl h2⟩
        · exact Or.inr h
        · exact Or.inl ⟨h1.symm, Or.inr h2⟩
    · rw [show SolverPy.addAlert ((K', l') :: d) K b =
        (K', l') :: SolverPy.addAlert d K b from by simp [SolverPy.addAlert, hKK]]
      rw [memAlert_cons, memAlert_cons, ih]
      tauto

/-- Characterization of the alert dictionary built by compute_expiry_alerts:
an alert sits under key L exactly when some bucket expires on day L with at
least one unscheduled calorie, and it is the alert record built for that
bucket. -/
theorem alerts_mem_iff (r : SolveResult) (bks : List Bucket) (people : ℚ)
    (L : ℤ) (a : SolverPy.Alert) :
    SolverPy.memAlert (SolverPy.compute_expiry_alerts r bks people) L a ↔
      ∃ bk ∈ bks, bk.last_day = some L ∧
        ¬ SolverPy.extraCal r bk L < 1 ∧
        a = SolverPy.mkAlert r people bk L := by
  have key : ∀ (bl : List Bucket) (acc : List (ℤ × List SolverPy.Alert))
      (L : ℤ) (a : SolverPy.Alert),
      SolverPy.memAlert
        (bl.foldl (fun acc bk =>
          match bk.last_day with
          | none => acc
          | some K =>
            if SolverPy.extraCal r bk K < 1 then acc
            else SolverPy.addAlert acc K (SolverPy.mkAlert r people bk K)) acc)
        L a ↔
      SolverPy.memAlert acc L a ∨
        ∃ bk ∈ bl, bk.last_day = some L ∧ ¬ SolverPy.extraCal r bk L < 1 ∧
          a = SolverPy.mkAlert r people bk L := by
    intro bl
    induction bl with
    | nil =>
      intro acc L a
      simp
    | cons bk bl ih =>
      intro acc L a
      rw [List.foldl_cons]
      cases hld : bk.last_day with
      | none =>
        rw [show (match (none : Option ℤ) with
          | none => acc
          | some K =>
            if SolverPy.extraCal r bk K < 1 then acc
            else SolverPy.addAlert acc K (SolverPy.mkAlert r people bk K)) = acc
          from rfl]
        rw [ih, List.exists_mem_cons_iff]
        simp [hld]
      | some K =>
        by_cases hlt : SolverPy.extraCal r bk K < 1
        · rw [show (match (some K : Option ℤ) with
            | none => acc
            | some K =>
              if SolverPy.extraCal r bk K < 1 then acc
              else SolverPy.addAlert acc K (SolverPy.mkAlert r people bk K)) = acc
            from by
              show (if SolverPy.extraCal r bk K < 1 then acc
                else SolverPy.addAlert acc K (SolverPy.mkAlert r people bk K)) = acc
              exact if_pos hlt]
          rw [ih, List.exists_mem_cons_iff]
          have hno : ¬ (bk.last_day = some L ∧
              1 ≤ SolverPy.extraCal r bk L ∧
              a = SolverPy.mkAlert r people bk L) := by
            rintro ⟨h1, h2, _⟩
            rw [hld] at h1
            injection h1 with h1
            subst h1
            exact absurd hlt (not_lt.mpr h2)
          simp [hno]
        · rw [show (match (some K : Option ℤ) with
            | none => acc
            | some K =>
              if SolverPy.extraCal r bk K < 1 then acc
              else SolverPy.addAlert acc K (SolverPy.mkAlert r people bk K)) =
              SolverPy.addAlert acc K (SolverPy.mkAlert r people bk K)
            from by
              show (if SolverPy.extraCal r bk K < 1 then acc
                else SolverPy.addAlert acc K (SolverPy.mkAlert r people bk K)) =
                SolverPy.addAlert acc K (SolverPy.mkAlert r people bk K)
              exact if_neg hlt]
          rw [ih, memAlert_addAlert, List.exists_mem_cons_iff]
          constructor
          · rintro ((h | ⟨h1, h2⟩) | h)
            · exact Or.inl h
            · subst h1
              exact Or.inr (Or.inl ⟨hld, hlt, h2⟩)
            · exact Or.inr (Or.inr h)
          · rintro (h | (⟨h1, h2, h3⟩ | h))
            · exact Or.inl (Or.inl h)
            · rw [hld] at h1
              injection h1 with h1
              subst h1
              exact Or.inl (Or.inr ⟨rfl, h3⟩)
            · exact Or.inr h
  unfold SolverPy.compute_expiry_alerts
  rw [key]
  simp [memAlert_nil L a]

theorem one_le_extraCal_iff (r : SolveResult) (bk : Bucket) (L : ℤ) :
    1 ≤ SolverPy.extraCal r bk L ↔
      1 ≤ bk.calories - SolverPy.scheduledThrough r bk.name L := by
  unfold SolverPy.extraCal
  constructor
  · intro h
    rcases le_max_iff.mp h with h | h
    · norm_num at h
    · exact h
  · intro h
    exact le_max_iff.mpr (Or.inr h)

/-- Claim C9: the alert generator emits an alert for a bucket exactly when
the bucket has a finite expiry day L and at least one calorie of its total
is not scheduled through day L; the alert is stored under the dictionary key
L itself, and its extra_units_per_person field is the floor of
extra_calories / cal_per_unit / population, with the remaining units
reported in remainder_units. -/
theorem alerts_characterized (r : SolveResult) (bks : List Bucket)
    (people : ℚ) (hpeople : 0 < people)
    (hcpu : ∀ bk ∈ bks, 0 < bk.cal_per_unit) :
    (∀ (L : ℤ) (a : SolverPy.Alert),
      SolverPy.memAlert (SolverPy.compute_expiry_alerts r bks people) L a ↔
        ∃ bk ∈ bks, bk.last_day = some L ∧
          1 ≤ bk.calories - SolverPy.scheduledThrough r bk.name L ∧
          a = SolverPy.mkAlert r people bk L) ∧
    (∀ (L : ℤ) (a : SolverPy.Alert),
      SolverPy.memAlert (SolverPy.compute_expiry_alerts r bks people) L a →
        a.extra_units_per_person =
          ⌊a.extra_calories / a.cal_per_unit / people⌋ ∧
        a.remainder_units =
          a.extra_units_total - (a.extra_units_per_person : ℚ) * people) := by
  have hchar : ∀ (L : ℤ) (a : SolverPy.Alert),
      SolverPy.memAlert (SolverPy.compute_expiry_alerts r bks people) L a ↔
        ∃ bk ∈ bks, bk.last_day = some L ∧
          1 ≤ bk.calories - SolverPy.scheduledThrough r bk.name L ∧
          a = SolverPy.mkAlert r people bk L := by
    intro L a
    rw [alerts_mem_iff]
    constructor
    · rintro ⟨bk, hbk, h1, h2, h3⟩
      exact ⟨bk, hbk, h1, (one_le_extraCal_iff r bk L).mp (not_lt.mp h2), h3⟩
    · rintro ⟨bk, hbk, h1, h2, h3⟩
      exact ⟨bk, hbk, h1, not_lt.mpr ((one_le_extraCal_iff r bk L).mpr h2), h3⟩
  refine ⟨hchar, ?_⟩
  intro L a hmem
  obtain ⟨bk, hbk, hld, hge, rfl⟩ := (hchar L a).mp hmem
  have hext : 0 ≤ SolverPy.extraCal r bk L := by
    unfold SolverPy.extraCal
    exact le_max_left 0 _
  have hq : 0 ≤ SolverPy.extraCal r bk L / bk.cal_per_unit / people :=
    div_nonneg (div_nonneg hext (le_of_lt (hcpu bk hbk))) (le_of_lt hpeople)
  constructor
  · show pyTrunc (SolverPy.extraCal r bk L / bk.cal_per_unit / people) =
      ⌊SolverPy.extraCal r bk L / bk.cal_per_unit / people⌋
    exact pyTrunc_eq_floor _ hq
  · rfl

/-- Witness for C9: a bucket expiring on day 3 with 6 unscheduled calories
produces its alert under key 3. -/
theorem alerts_characterized_check :
    SolverPy.memAlert
      (SolverPy.compute_expiry_alerts
        { status := "Optimal", max_days := 1
          schedule := [{ day := 1, survived := 1, draws := [("Jam", 4)]
                         total := 4 }]
          waste_by_day := [], total_waste_by_bucket := [] }
        [{ name := "Jam", calories := 10, last_day := some 3
           cal_per_unit := 2 }] 2) 3
      (SolverPy.mkAlert
        { status := "Optimal", max_days := 1
          schedule := [{ day := 1, survived := 1, draws := [("Jam", 4)]
                         total := 4 }]
          waste_by_day := [], total_waste_by_bucket := [] } 2
        { name := "Jam", calories := 10, last_day := some 3
          cal_per_unit := 2 } 3) :=
  ((alerts_characterized
    { status := "Optimal", max_days := 1
      schedule := [{ day := 1, survived := 1, draws := [("Jam", 4)], total := 4 }]
      waste_by_day := [], total_waste_by_bucket := [] }
    [{ name := "Jam", calories := 10, last_day := some 3, cal_per_unit := 2 }]
    2 (by norm_num) (by
      intro bk hbk
      simp only [List.mem_singleton] at hbk
      subst hbk
      norm_num)).1 3 _).mpr
    ⟨{ name := "Jam", calories := 10, last_day := some 3, cal_per_unit := 2 },
      by simp, rfl,
      by norm_num [SolverPy.scheduledThrough, List.lookup], rfl⟩

/-- Claim C10: with positive population and positive calories-per-unit for
every bucket, every emitted alert has nonnegative extra_units_per_person and
nonnegative remainder_units (and the divisions in compute_expiry_alerts are
by nonzero quantities). -/
theorem alerts_fields_nonneg (r : SolveResult) (bks : List Bucket)
    (people : ℚ) (hpeople : 0 < people)
    (hcpu : ∀ bk ∈ bks, 0 < bk.cal_per_unit) :
    ∀ (L : ℤ) (a : SolverPy.Alert),
      SolverPy.memAlert (SolverPy.compute_expiry_alerts r bks people) L a →
        0 ≤ a.extra_units_per_person ∧ 0 ≤ a.remainder_units := by
  intro L a hmem
  obtain ⟨bk, hbk, hld, hlt, rfl⟩ := (alerts_mem_iff r bks people L a).mp hmem
  have hext : 0 ≤ SolverPy.extraCal r bk L := by
    unfold SolverPy.extraCal
    exact le_max_left 0 _
  have hq : 0 ≤ SolverPy.extraCal r bk L / bk.cal_per_unit / people :=
    div_nonneg (div_nonneg hext (le_of_lt (hcpu bk hbk))) (le_of_lt hpeople)
  have htr : pyTrunc (SolverPy.extraCal r bk L / bk.cal_per_unit / people) =
      ⌊SolverPy.extraCal r bk L / bk.cal_per_unit / people⌋ :=
    pyTrunc_eq_floor _ hq
  constructor
  · show 0 ≤ pyTrunc (SolverPy.extraCal r bk L / bk.cal_per_unit / people)
    rw [htr]
    exact Int.floor_nonneg.mpr hq
  · show 0 ≤ SolverPy.extraCal r bk L / bk.cal_per_unit -
      (pyTrunc (SolverPy.extraCal r bk L / bk.cal_per_unit / people) : ℚ) * people
    rw [htr]
    have hfl : ((⌊SolverPy.extraCal r bk L / bk.cal_per_unit / people⌋ : ℤ) : ℚ) ≤
        SolverPy.extraCal r bk L / bk.cal_per_unit / people := Int.floor_le _
    have hmul : ((⌊SolverPy.extraCal r bk L / bk.cal_per_unit / people⌋ : ℤ) : ℚ) *
        people ≤ (SolverPy.extraCal r bk L / bk.cal_per_unit / people) * people :=
      mul_le_mul_of_nonneg_right hfl (le_of_lt hpeople)
    have hcan : (SolverPy.extraCal r bk L / bk.cal_per_unit / people) * people =
        SolverPy.extraCal r bk L / bk.cal_per_unit :=
      div_mul_cancel₀ _ (ne_of_gt hpeople)
    linarith

/-- Witness for C10: the alert of a bucket expiring on day 3 with 8
unscheduled calories has nonnegative per-person units and remainder. -/
theorem alerts_fields_nonneg_check :
    0 ≤ (SolverPy.mkAlert
      { status := "Optimal", max_days := 1
        schedule := [{ day := 1, survived := 1, draws := [("Pea", 4)]
                       total := 4 }]
        waste_by_day := [], total_waste_by_bucket := [] } 2
      { name := "Pea", calories := 12, last_day := some 3
        cal_per_unit := 2 } 3).extra_units_per_person ∧
    0 ≤ (SolverPy.mkAlert
      { status := "Optimal", max_days := 1
        schedule := [{ day := 1, survived := 1, draws := [("Pea", 4)]
                       total := 4 }]
        waste_by_day := [], total_waste_by_bucket := [] } 2
      { name := "Pea", calories := 12, last_day := some 3
        cal_per_unit := 2 } 3).remainder_units :=
  alerts_fields_nonneg
    { status := "Optimal", max_days := 1
      schedule := [{ day := 1, survived := 1, draws := [("Pea", 4)], total := 4 }]
      waste_by_day := [], total_waste_by_bucket := [] }
    [{ name := "Pea", calories := 12, last_day := some 3, cal_per_unit := 2 }]
    2 (by norm_num)
    (by
      intro bk hbk
      simp only [List.mem_singleton] at hbk
      subst hbk
      norm_num)
    3 _
    ((alerts_mem_iff _ _ _ 3 _).mpr
      ⟨{ name := "Pea", calories := 12, last_day := some 3, cal_per_unit := 2 },
        by simp, rfl,
        by norm_num [SolverPy.extraCal, SolverPy.scheduledThrough, List.lookup],
        rfl⟩)
